import Mathlib

/-! Verification of the payslip ingestion and retrieval service of the hr-system
repository.  The frontend (src/frontend/src) is embedded directly; the backend core
(validation layer, ingestion orchestrator, metadata repository, query/access layer)
is not present in the repository snapshot, so it is modelled from the specification. -/

/-- Roles recognised by the platform (src/frontend/src/services/authService.ts,
src/frontend/src/contexts/AuthContext.tsx). -/
inductive Role where
  | employee
  | hr_manager
  | administrator
  | auditor
  deriving DecidableEq

/-- Modelled from the spec: the field-level violation kinds of the Validation Layer
(spec 4.1): InvalidFileType, FileTooLarge, InvalidPeriod, InvalidEmployeeId. -/
inductive Violation where
  | invalidFileType
  | fileTooLarge
  | invalidPeriod
  | invalidEmployeeId
  deriving DecidableEq

/-- Modelled from the spec: configuration passed explicitly into each component
(spec 9): maximum file size (default 10 MiB), pagination cap (default 1000), and the
current year bounding the permitted period window (spec 3). -/
structure Config where
  maxFileSize : Nat
  maxPageLimit : Nat
  currentYear : Int
  deriving DecidableEq

/-- Modelled from the spec: raw upload parameters given to the Validation Layer
(spec 4.1): employee_id, month, year, file bytes, declared content type.  Byte
length is the length of `bytes`. -/
structure RawUpload where
  employee_id : Int
  month : Int
  year : Int
  filename : String
  contentType : String
  bytes : List Nat
  deriving DecidableEq

/-- The PDF header signature bytes `%PDF` (0x25 0x50 0x44 0x46). -/
def pdfSignature : List Nat := [37, 80, 68, 70]

/-- Modelled from the spec: byte-level signature sniff of the file header (spec 4.1). -/
def isPdfSignature (bytes : List Nat) : Bool := bytes.take 4 == pdfSignature

/-- Modelled from the spec: the Validation Layer (spec 4.1).  Pure; runs to
completion, collecting every violation rather than stopping at the first.  A file is
a PDF only when both the declared content type and the byte-level signature agree
(declared type alone is not trusted). -/
def validate (cfg : Config) (u : RawUpload) : List Violation :=
  (if u.contentType = "application/pdf" ∧ isPdfSignature u.bytes = true then []
   else [Violation.invalidFileType]) ++
  (if u.bytes.length ≤ cfg.maxFileSize then [] else [Violation.fileTooLarge]) ++
  (if 1 ≤ u.month ∧ u.month ≤ 12 ∧ 2000 ≤ u.year ∧ u.year ≤ cfg.currentYear + 1 then []
   else [Violation.invalidPeriod]) ++
  (if 0 < u.employee_id then [] else [Violation.invalidEmployeeId])

/-- Modelled from the spec: the sole core entity PayslipRecord (spec 3). -/
structure PayslipRecord where
  id : Nat
  employee_id : Int
  month : Int
  year : Int
  filename : String
  storage_key : String
  file_size : Nat
  created_at : Nat
  deriving DecidableEq

/-- Modelled from the spec: the deterministic storage key scheme
payslips/employee_id/year/month/suffix.pdf (spec 3). -/
def storageKey (employee_id year month : Int) (suffix : String) : String :=
  "payslips/" ++ toString employee_id ++ "/" ++ toString year ++ "/" ++
    toString month ++ "/" ++ suffix ++ ".pdf"

/-- Modelled from the spec: the combined state of the two external stores — the
Metadata Repository rows and the Blob Store key-to-bytes pairs (spec 2, 5). -/
structure StoreState where
  metadata : List PayslipRecord
  blobs : List (String × List Nat)
  deriving DecidableEq

/-- The initial, empty state of both stores. -/
def emptyState : StoreState := { metadata := [], blobs := [] }

/-- Modelled from the spec: whether the (employee_id, month, year) uniqueness slot
is already occupied in the Metadata Repository (spec 4.2 step 3). -/
def occupied (st : StoreState) (eid m y : Int) : Bool :=
  st.metadata.any (fun r => r.employee_id == eid && r.month == m && r.year == y)

/-- Modelled from the spec: the repository assigns a fresh opaque id at creation
(spec 3); freshness is realised as one more than the largest id in use. -/
def nextId (st : StoreState) : Nat :=
  (st.metadata.map PayslipRecord.id).foldr max 0 + 1

/-- Modelled from the spec: the failure taxonomy of ingestion (spec 7). -/
inductive IngestError where
  | validationFailed (violations : List Violation)
  | duplicatePayslip
  | storageWriteFailed
  deriving DecidableEq

/-- Modelled from the spec: errors of the single-record query/delete operations
(spec 6, 7). -/
inductive ApiError where
  | notFound
  | forbidden
  deriving DecidableEq

/-- Modelled from the spec: the record built by a successful reservation and
finalize (spec 4.2 steps 2, 3 and 5): fresh id, the validated triple, the derived
storage key, byte length and the insertion timestamp. -/
def mkRecord (now : Nat) (suffix : String) (u : RawUpload) (st : StoreState) : PayslipRecord :=
  { id := nextId st, employee_id := u.employee_id, month := u.month,
    year := u.year, filename := u.filename,
    storage_key := storageKey u.employee_id u.year u.month suffix,
    file_size := u.bytes.length, created_at := now }

/-- Modelled from the spec: the Ingestion Orchestrator (spec 4.2).  Step order:
validation (no side effects on failure), atomic insert-if-absent reservation of the
uniqueness slot (DuplicatePayslip before any blob write), blob write (outcome given
by `blobOk`), finalize.  On blob-write failure the reservation is released by a
compensating delete of the reserved metadata row and StorageWriteFailed is returned. -/
def ingest (cfg : Config) (now : Nat) (suffix : String) (blobOk : Bool)
    (u : RawUpload) (st : StoreState) : Except IngestError PayslipRecord × StoreState :=
  if validate cfg u = [] then
    if occupied st u.employee_id u.month u.year then
      (Except.error IngestError.duplicatePayslip, st)
    else
      let newRec := mkRecord now suffix u st
      if blobOk then
        (Except.ok newRec,
         { metadata := newRec :: st.metadata,
           blobs := (newRec.storage_key, u.bytes) :: st.blobs })
      else
        (Except.error IngestError.storageWriteFailed,
         { metadata := (newRec :: st.metadata).filter (fun r => r.id != newRec.id),
           blobs := st.blobs })
  else
    (Except.error (IngestError.validationFailed (validate cfg u)), st)

/-- Modelled from the spec: the administrative delete, removing both the metadata
row and the backing blob, or NotFound when no such record exists (spec 3). -/
def deleteRecord (pid : Nat) (st : StoreState) : Except ApiError StoreState :=
  match st.metadata.find? (fun r => r.id == pid) with
  | none => Except.error ApiError.notFound
  | some r =>
      Except.ok { metadata := st.metadata.filter (fun x => x.id != pid),
                  blobs := st.blobs.filter (fun b => b.fst != r.storage_key) }

/-- Modelled from the spec: the operations that change store state — ingestion and
administrative delete (spec 3: created only via the orchestrator, deleted only via
the explicit delete). -/
inductive Op where
  | ingestOp (now : Nat) (suffix : String) (blobOk : Bool) (u : RawUpload)
  | deleteOp (pid : Nat)

/-- Apply one operation to the store state; failed operations leave it unchanged. -/
def applyOp (cfg : Config) (st : StoreState) : Op → StoreState
  | Op.ingestOp now suffix blobOk u => (ingest cfg now suffix blobOk u st).2
  | Op.deleteOp pid =>
      match deleteRecord pid st with
      | Except.ok st' => st'
      | Except.error _ => st

/-- Run a sequence of operations from the empty initial state; the results are the
reachable states of the store. -/
def runOps (cfg : Config) (ops : List Op) : StoreState :=
  ops.foldl (applyOp cfg) emptyState

/-- At most one record per (employee_id, month, year) triple (spec 3 invariant). -/
def UniqueTriples (l : List PayslipRecord) : Prop :=
  l.Pairwise (fun a b => ¬(a.employee_id = b.employee_id ∧ a.month = b.month ∧ a.year = b.year))

/-- Optional list filters, as in the boundary contract (spec 6) and the frontend
PayslipFilters interface (src/frontend/src/services/payslipService.ts). -/
structure Filters where
  employee_id : Option Int
  year : Option Int
  month : Option Int
  deriving DecidableEq

/-- The caller's verified identity and role (spec 4.3). -/
structure Identity where
  employee_id : Int
  role : Role
  deriving DecidableEq

/-- Modelled from the spec: the pure role-based filter narrowing (spec 4.3, 9):
employee filters are forcibly narrowed to the caller's own employee_id; other roles
take filters as supplied. -/
def effectiveFilters (ident : Identity) (requested : Filters) : Filters :=
  match ident.role with
  | Role.employee =>
      { employee_id := some ident.employee_id, year := requested.year, month := requested.month }
  | _ => requested

/-- Whether a record matches a filter set (absent fields match everything). -/
def matchesFilters (f : Filters) (r : PayslipRecord) : Bool :=
  (match f.employee_id with
   | none => true
   | some e => r.employee_id == e) &&
  (match f.year with
   | none => true
   | some y => r.year == y) &&
  (match f.month with
   | none => true
   | some m => r.month == m)

/-- Most-recent-first order on records: the right element was created no later than
the left one. -/
def createdGe (a b : PayslipRecord) : Prop := b.created_at ≤ a.created_at

instance : DecidableRel createdGe :=
  fun a b => inferInstanceAs (Decidable (b.created_at ≤ a.created_at))

instance : IsTotal PayslipRecord createdGe :=
  ⟨fun a b => Nat.le_total b.created_at a.created_at⟩

instance : IsTrans PayslipRecord createdGe :=
  ⟨fun _ _ _ h1 h2 => Nat.le_trans h2 h1⟩

/-- Modelled from the spec: the Query/Access Layer list operation (spec 4.3):
role-narrowed filtering, created_at-descending order, skip/limit pagination with the
limit silently clamped to the configured maximum. -/
def listPayslips (cfg : Config) (ident : Identity) (requested : Filters)
    (skip limit : Nat) (db : List PayslipRecord) : List PayslipRecord :=
  (((db.filter (matchesFilters (effectiveFilters ident requested))).insertionSort
      createdGe).drop skip).take (min limit cfg.maxPageLimit)

/-- Modelled from the spec: single-record fetch (spec 4.3, 6): same role check as
list, returning NotFound (not Forbidden) when an employee requests a record outside
their scope. -/
def getById (ident : Identity) (pid : Nat) (st : StoreState) : Except ApiError PayslipRecord :=
  match st.metadata.find? (fun r => r.id == pid) with
  | none => Except.error ApiError.notFound
  | some r =>
      if ident.role = Role.employee ∧ r.employee_id ≠ ident.employee_id then
        Except.error ApiError.notFound
      else
        Except.ok r

/-- Modelled from the spec: delete-by-id (spec 4.3, 6): the scope check mirrors
single-record fetch (out-of-scope records answer NotFound, hiding existence); a
visible record may be deleted only by administrator or hr_manager roles, others
receive Forbidden. -/
def deleteById (ident : Identity) (pid : Nat) (st : StoreState) : Except ApiError StoreState :=
  match st.metadata.find? (fun r => r.id == pid) with
  | none => Except.error ApiError.notFound
  | some r =>
      if ident.role = Role.employee ∧ r.employee_id ≠ ident.employee_id then
        Except.error ApiError.notFound
      else if ident.role = Role.administrator ∨ ident.role = Role.hr_manager then
        Except.ok { metadata := st.metadata.filter (fun x => x.id != pid),
                    blobs := st.blobs.filter (fun b => b.fst != r.storage_key) }
      else
        Except.error ApiError.forbidden

/-- A platform user, as in the User interfaces of
src/frontend/src/services/authService.ts and src/frontend/src/contexts/AuthContext.tsx. -/
structure User where
  id : Nat
  employee_id : Nat
  name : String
  email : String
  role : Role
  deriving DecidableEq

/-- The fixed demo employee user returned by AuthService.login
(src/frontend/src/services/authService.ts lines 38 to 45). -/
def demoUser : User :=
  { id := 1, employee_id := 123, name := "Demo User",
    email := "demo@company.com", role := Role.employee }

/-- The fixed HR manager user returned by AuthService.login
(src/frontend/src/services/authService.ts lines 50 to 57). -/
def hrUser : User :=
  { id := 2, employee_id := 456, name := "HR Manager",
    email := "hr@company.com", role := Role.hr_manager }

/-- AuthService.login (src/frontend/src/services/authService.ts lines 29 to 63):
resolves for exactly the two demo credential pairs, rejecting everything else with
the message Invalid credentials; `now` stands for Date.now() in the token text. -/
def login (now : Nat) (email password : String) : Except String (String × User) :=
  if email = "demo@company.com" ∧ password = "demo123" then
    Except.ok ("demo-jwt-token-" ++ toString now, demoUser)
  else if email = "hr@company.com" ∧ password = "hr123" then
    Except.ok ("hr-jwt-token-" ++ toString now, hrUser)
  else
    Except.error "Invalid credentials"

/-- The claims carried by a decodable stored JWT
(src/frontend/src/contexts/AuthContext.tsx lines 40 to 51). -/
structure JwtClaims where
  exp : Int
  user_id : Nat
  employee_id : Nat
  name : String
  email : String
  role : Role
  deriving DecidableEq

/-- Outcome of jwtDecode on a stored token: either the decoded claims, or a decode
failure (the catch branch of initAuth). -/
inductive DecodeOutcome where
  | valid (claims : JwtClaims)
  | invalid
  deriving DecidableEq

/-- The authentication state produced by initAuth: the user and token React state
and the surviving localStorage auth_token entry. -/
structure AuthState where
  user : Option User
  token : Option String
  storage : Option String
  loading : Bool
  deriving DecidableEq

/-- The user object built from decoded claims
(src/frontend/src/contexts/AuthContext.tsx lines 45 to 51). -/
def userFromClaims (c : JwtClaims) : User :=
  { id := c.user_id, employee_id := c.employee_id, name := c.name,
    email := c.email, role := c.role }

/-- AuthProvider initAuth (src/frontend/src/contexts/AuthContext.tsx lines 33 to 65):
a stored token is accepted only when it decodes and its exp is strictly greater than
the current time; otherwise the token is removed from storage and the user state
stays null.  `stored` is the auth_token entry paired with its decode outcome,
`currentTime` stands for Date.now() / 1000. -/
def initAuth (stored : Option (String × DecodeOutcome)) (currentTime : Int) : AuthState :=
  match stored with
  | none => { user := none, token := none, storage := none, loading := false }
  | some (_, DecodeOutcome.invalid) =>
      { user := none, token := none, storage := none, loading := false }
  | some (tok, DecodeOutcome.valid c) =>
      if currentTime < c.exp then
        { user := some (userFromClaims c), token := some tok,
          storage := some tok, loading := false }
      else
        { user := none, token := none, storage := none, loading := false }

/-- The query filter construction of the payslip list page
(src/frontend/src/pages/PayslipList.tsx lines 55 to 68): an employee-role user's
employee_id always overrides the requested employee_id filter; other roles pass
their requested filters through. -/
def buildQueryFilters (userRole : Role) (userEmployeeId : Int) (filters : Filters) : Filters :=
  { employee_id := if userRole = Role.employee then some userEmployeeId else filters.employee_id,
    year := filters.year, month := filters.month }

/-- A concrete configuration with the spec's defaults: 10 MiB file cap, page
limit 1000 (spec 4.1, 4.3), current year 2026. -/
def cfgEx : Config := { maxFileSize := 10485760, maxPageLimit := 1000, currentYear := 2026 }

/-- A concrete valid upload (the spec 8 scenario, shortened bytes). -/
def uEx : RawUpload :=
  { employee_id := 123, month := 12, year := 2024, filename := "dec.pdf",
    contentType := "application/pdf", bytes := [37, 80, 68, 70, 1, 2] }

/-- A concrete upload declaring PDF while its bytes carry no PDF signature. -/
def uBadSig : RawUpload :=
  { employee_id := 123, month := 12, year := 2024, filename := "dec.pdf",
    contentType := "application/pdf", bytes := [1, 2, 3, 4] }

/-- A concrete upload with an invalid month and a non-positive employee id. -/
def uBadFields : RawUpload :=
  { employee_id := 0, month := 13, year := 2024, filename := "dec.pdf",
    contentType := "application/pdf", bytes := [37, 80, 68, 70] }

/-- A concrete stored record for employee 123. -/
def recEx : PayslipRecord :=
  { id := 1, employee_id := 123, month := 12, year := 2024, filename := "dec.pdf",
    storage_key := storageKey 123 2024 12 "s1", file_size := 6, created_at := 3 }

/-- A concrete stored record for a different employee, 456. -/
def recOther : PayslipRecord :=
  { id := 2, employee_id := 456, month := 11, year := 2024, filename := "nov.pdf",
    storage_key := storageKey 456 2024 11 "s9", file_size := 6, created_at := 9 }

/-- A concrete store holding the record of employee 123. -/
def stEx : StoreState := { metadata := [recEx], blobs := [(recEx.storage_key, uEx.bytes)] }

/-- A concrete store holding only another employee's record. -/
def stOther : StoreState :=
  { metadata := [recOther], blobs := [(recOther.storage_key, [37, 80, 68, 70])] }

/-- An employee-role identity for employee 123. -/
def identEmp : Identity := { employee_id := 123, role := Role.employee }

/-- An HR manager identity. -/
def identHr : Identity := { employee_id := 456, role := Role.hr_manager }

/-- An empty filter set. -/
def noFilters : Filters := { employee_id := none, year := none, month := none }

/-! Helper lemmas. -/

/-- Every element of a list of naturals is bounded by the foldr of max. -/
lemma le_foldr_max {a : Nat} : ∀ {l : List Nat}, a ∈ l → a ≤ l.foldr max 0 := by
  intro l h
  induction l with
  | nil => cases h
  | cons b t ih =>
      rcases List.mem_cons.mp h with rfl | h
      · exact Nat.le_max_left _ _
      · exact Nat.le_trans (ih h) (Nat.le_max_right _ _)

/-- Ids of records already in the store are strictly below the next fresh id. -/
lemma id_lt_nextId {st : StoreState} {r : PayslipRecord} (h : r ∈ st.metadata) :
    r.id < nextId st :=
  Nat.lt_succ_of_le (le_foldr_max (List.mem_map_of_mem PayslipRecord.id h))

/-- The compensating delete of a freshly reserved row restores the previous rows. -/
lemma compensate_restores {st : StoreState} {newRec : PayslipRecord}
    (hid : nextId st ≤ newRec.id) :
    (newRec :: st.metadata).filter (fun r => r.id != newRec.id) = st.metadata := by
  have hall : ∀ r ∈ st.metadata, (r.id != newRec.id) = true := fun r hr =>
    bne_iff_ne.mpr (Nat.ne_of_lt (Nat.lt_of_lt_of_le (id_lt_nextId hr) hid))
  rw [List.filter_cons]
  simp only [bne_self_eq_false, Bool.false_eq_true, if_false]
  exact List.filter_eq_self.mpr hall

/-- Unfolding of ingest when validation fails. -/
lemma ingest_validation_fail {cfg : Config} {u : RawUpload} (now : Nat) (suffix : String)
    (blobOk : Bool) (st : StoreState) (hv : validate cfg u ≠ []) :
    ingest cfg now suffix blobOk u st =
      (Except.error (IngestError.validationFailed (validate cfg u)), st) := by
  rw [ingest, if_neg hv]

/-- Unfolding of ingest on an occupied uniqueness slot. -/
lemma ingest_duplicate {cfg : Config} {u : RawUpload} (now : Nat) (suffix : String)
    (blobOk : Bool) {st : StoreState} (hv : validate cfg u = [])
    (hocc : occupied st u.employee_id u.month u.year = true) :
    ingest cfg now suffix blobOk u st = (Except.error IngestError.duplicatePayslip, st) := by
  rw [ingest, if_pos hv]
  simp only [hocc, if_true]

/-- Unfolding of ingest on the success path. -/
lemma ingest_success {cfg : Config} {u : RawUpload} (now : Nat) (suffix : String)
    {st : StoreState} (hv : validate cfg u = [])
    (hocc : occupied st u.employee_id u.month u.year = false) :
    ingest cfg now suffix true u st =
      (Except.ok (mkRecord now suffix u st),
       { metadata := mkRecord now suffix u st :: st.metadata,
         blobs := ((mkRecord now suffix u st).storage_key, u.bytes) :: st.blobs }) := by
  rw [ingest, if_pos hv]
  simp only [hocc, Bool.false_eq_true, if_false, if_true]

/-- Unfolding of ingest on a blob-write failure: the compensating delete makes the
whole operation a no-op on the state. -/
lemma ingest_blob_fail {cfg : Config} {u : RawUpload} (now : Nat) (suffix : String)
    {st : StoreState} (hv : validate cfg u = [])
    (hocc : occupied st u.employee_id u.month u.year = false) :
    ingest cfg now suffix false u st = (Except.error IngestError.storageWriteFailed, st) := by
  rw [ingest, if_pos hv]
  simp only [hocc, Bool.false_eq_true, if_false]
  have hc : (mkRecord now suffix u st :: st.metadata).filter
      (fun r => r.id != (mkRecord now suffix u st).id) = st.metadata :=
    compensate_restores (Nat.le_refl _)
  rw [hc]

/-- An unoccupied slot means no stored record carries the triple. -/
lemma not_occupied_iff {st : StoreState} {eid m y : Int} :
    occupied st eid m y = false ↔
      ∀ r ∈ st.metadata, ¬(r.employee_id = eid ∧ r.month = m ∧ r.year = y) := by
  rw [occupied]
  rw [← Bool.not_eq_true, List.any_eq_true]
  constructor
  · intro h r hr htriple
    exact h ⟨r, hr, by simp [htriple.1, htriple.2.1, htriple.2.2]⟩
  · rintro h ⟨r, hr, hb⟩
    simp only [Bool.and_eq_true, beq_iff_eq] at hb
    exact h r hr ⟨hb.1.1, hb.1.2, hb.2⟩

/-- A single ingestion step preserves triple uniqueness. -/
lemma ingest_preserves_unique (cfg : Config) (now : Nat) (suffix : String) (blobOk : Bool)
    (u : RawUpload) (st : StoreState) (h : UniqueTriples st.metadata) :
    UniqueTriples ((ingest cfg now suffix blobOk u st).2).metadata := by
  by_cases hv : validate cfg u = []
  · by_cases hocc : occupied st u.employee_id u.month u.year = true
    · rw [ingest_duplicate now suffix blobOk hv hocc]
      exact h
    · have hocc' : occupied st u.employee_id u.month u.year = false :=
        Bool.not_eq_true _ ▸ hocc
      have hcons : UniqueTriples (mkRecord now suffix u st :: st.metadata) := by
        refine List.Pairwise.cons ?_ h
        intro r hr htriple
        exact (not_occupied_iff.mp hocc') r hr ⟨htriple.1.symm, htriple.2.1.symm, htriple.2.2.symm⟩
      cases blobOk with
      | true =>
          rw [ingest_success now suffix hv hocc']
          exact hcons
      | false =>
          rw [ingest_blob_fail now suffix hv hocc']
          exact h
  · rw [ingest_validation_fail now suffix blobOk st hv]
    exact h

/-- A single delete step preserves triple uniqueness. -/
lemma delete_preserves_unique (pid : Nat) (st : StoreState) (h : UniqueTriples st.metadata) :
    ∀ st', deleteRecord pid st = Except.ok st' → UniqueTriples st'.metadata := by
  intro st' hdel
  rw [deleteRecord] at hdel
  cases hfind : st.metadata.find? (fun r => r.id == pid) with
  | none => rw [hfind] at hdel; cases hdel
  | some r =>
      rw [hfind] at hdel
      cases hdel
      exact h.sublist (List.filter_sublist st.metadata)

/-- Every operation preserves triple uniqueness. -/
lemma applyOp_preserves_unique (cfg : Config) (st : StoreState) (op : Op)
    (h : UniqueTriples st.metadata) : UniqueTriples ((applyOp cfg st op).metadata) := by
  cases op with
  | ingestOp now suffix blobOk u => exact ingest_preserves_unique cfg now suffix blobOk u st h
  | deleteOp pid =>
      rw [applyOp]
      cases hdel : deleteRecord pid st with
      | ok st' => exact delete_preserves_unique pid st h st' hdel
      | error e => exact h

/-- Triple uniqueness is an inductive invariant of operation sequences. -/
lemma foldl_preserves_unique (cfg : Config) :
    ∀ (ops : List Op) (st : StoreState), UniqueTriples st.metadata →
      UniqueTriples ((ops.foldl (applyOp cfg) st).metadata) := by
  intro ops
  induction ops with
  | nil => intro st h; exact h
  | cons op rest ih =>
      intro st h
      exact ih (applyOp cfg st op) (applyOp_preserves_unique cfg st op h)

/-! Claim theorems. -/

/-- C1: in every reachable state of the metadata store at most one PayslipRecord
exists per (employee_id, month, year) triple, and an ingest whose uniqueness slot is
already occupied fails with DuplicatePayslip leaving the state — in particular the
blob store — untouched: the insert-if-absent check settles before any blob write. -/
theorem triple_uniqueness_invariant (cfg : Config) (ops : List Op) (now : Nat)
    (suffix : String) (blobOk : Bool) (u : RawUpload) (st : StoreState)
    (hv : validate cfg u = []) (hocc : occupied st u.employee_id u.month u.year = true) :
    UniqueTriples (runOps cfg ops).metadata ∧
    ingest cfg now suffix blobOk u st = (Except.error IngestError.duplicatePayslip, st) :=
  ⟨foldl_preserves_unique cfg ops emptyState List.Pairwise.nil,
   ingest_duplicate now suffix blobOk hv hocc⟩

/-- Witness for C1 at a concrete configuration, operation list, upload and store. -/
theorem triple_uniqueness_invariant_witness :
    UniqueTriples (runOps cfgEx [Op.ingestOp 3 "s1" true uEx]).metadata ∧
    ingest cfgEx 4 "s2" true uEx stEx = (Except.error IngestError.duplicatePayslip, stEx) :=
  triple_uniqueness_invariant cfgEx [Op.ingestOp 3 "s1" true uEx] 4 "s2" true uEx stEx
    (by decide) (by decide)

/-- C3: ingestion is atomic with respect to failure — every failing ingest
(validation failure, duplicate, or blob-write failure with its compensating delete)
leaves the store state exactly as it was, and every successful ingest leaves both
the metadata row and the backing blob in place. -/
theorem ingest_failure_atomic (cfg : Config) (now : Nat) (suffix : String) (blobOk : Bool)
    (u : RawUpload) (st : StoreState) :
    (∀ e st', ingest cfg now suffix blobOk u st = (Except.error e, st') → st' = st) ∧
    (∀ r st', ingest cfg now suffix blobOk u st = (Except.ok r, st') →
       r ∈ st'.metadata ∧ (r.storage_key, u.bytes) ∈ st'.blobs) := by
  constructor
  · intro e st' heq
    by_cases hv : validate cfg u = []
    · by_cases hocc : occupied st u.employee_id u.month u.year = true
      · rw [ingest_duplicate now suffix blobOk hv hocc] at heq
        injection heq with h1 h2
        exact h2.symm
      · have hocc' : occupied st u.employee_id u.month u.year = false :=
          Bool.not_eq_true _ ▸ hocc
        cases blobOk with
        | true =>
            rw [ingest_success now suffix hv hocc'] at heq
            injection heq with h1 h2
            exact Except.noConfusion h1
        | false =>
            rw [ingest_blob_fail now suffix hv hocc'] at heq
            injection heq with h1 h2
            exact h2.symm
    · rw [ingest_validation_fail now suffix blobOk st hv] at heq
      injection heq with h1 h2
      exact h2.symm
  · intro r st' heq
    by_cases hv : validate cfg u = []
    · by_cases hocc : occupied st u.employee_id u.month u.year = true
      · rw [ingest_duplicate now suffix blobOk hv hocc] at heq
        injection heq with h1 h2
        exact Except.noConfusion h1
      · have hocc' : occupied st u.employee_id u.month u.year = false :=
          Bool.not_eq_true _ ▸ hocc
        cases blobOk with
        | true =>
            rw [ingest_success now suffix hv hocc'] at heq
            injection heq with h1 h2
            have hrec : mkRecord now suffix u st = r := Except.ok.inj h1
            subst hrec
            subst h2
            exact ⟨List.mem_cons_self _ _, List.mem_cons_self _ _⟩
        | false =>
            rw [ingest_blob_fail now suffix hv hocc'] at heq
            injection heq with h1 h2
            exact Except.noConfusion h1
    · rw [ingest_validation_fail now suffix blobOk st hv] at heq
      injection heq with h1 h2
      exact Except.noConfusion h1

/-- Witness for C3: a blob-write failure at a concrete input leaves the store
exactly in its initial state. -/
theorem ingest_failure_atomic_witness :
    (ingest cfgEx 7 "s3" false uEx emptyState).2 = emptyState :=
  (ingest_failure_atomic cfgEx 7 "s3" false uEx emptyState).1
    IngestError.storageWriteFailed (ingest cfgEx 7 "s3" false uEx emptyState).2 (by rfl)

/-- C4: an upload declaring content-type application/pdf whose bytes do not start
with the PDF header signature fails validation — ingest returns ValidationFailed
listing InvalidFileType (so neither DuplicatePayslip nor success), because PDF-ness
requires both the declared type and the byte-level sniff. -/
theorem declared_pdf_without_signature_rejected (cfg : Config) (now : Nat)
    (suffix : String) (blobOk : Bool) (u : RawUpload) (st : StoreState)
    (hct : u.contentType = "application/pdf") (hsig : isPdfSignature u.bytes = false) :
    (ingest cfg now suffix blobOk u st).1 =
      Except.error (IngestError.validationFailed (validate cfg u)) ∧
    Violation.invalidFileType ∈ validate cfg u := by
  have hmem : Violation.invalidFileType ∈ validate cfg u := by
    rw [validate]
    have hno : ¬(u.contentType = "application/pdf" ∧ isPdfSignature u.bytes = true) := by
      rintro ⟨-, h⟩
      rw [hsig] at h
      cases h
    rw [if_neg hno]
    simp
  have hne : validate cfg u ≠ [] := by
    intro h
    rw [h] at hmem
    cases hmem
  exact ⟨by rw [ingest_validation_fail now suffix blobOk st hne], hmem⟩

/-- Witness for C4 at a concrete upload with a declared PDF type and bytes 1 2 3 4. -/
theorem declared_pdf_without_signature_rejected_witness :
    (ingest cfgEx 0 "s1" true uBadSig emptyState).1 =
      Except.error (IngestError.validationFailed (validate cfgEx uBadSig)) ∧
    Violation.invalidFileType ∈ validate cfgEx uBadSig :=
  declared_pdf_without_signature_rejected cfgEx 0 "s1" true uBadSig emptyState
    (by rfl) (by decide)

/-- C5: validation is a total pure function whose result characterises every
field-level violation independently — each violation kind is reported exactly when
its constraint fails, so an input breaking several constraints at once has all of
them listed in the returned violation list. -/
theorem validation_collects_all_violations (cfg : Config) (u : RawUpload) :
    (Violation.invalidFileType ∈ validate cfg u ↔
       ¬(u.contentType = "application/pdf" ∧ isPdfSignature u.bytes = true)) ∧
    (Violation.fileTooLarge ∈ validate cfg u ↔ ¬u.bytes.length ≤ cfg.maxFileSize) ∧
    (Violation.invalidPeriod ∈ validate cfg u ↔
       ¬(1 ≤ u.month ∧ u.month ≤ 12 ∧ 2000 ≤ u.year ∧ u.year ≤ cfg.currentYear + 1)) ∧
    (Violation.invalidEmployeeId ∈ validate cfg u ↔ ¬0 < u.employee_id) := by
  rw [validate]
  by_cases h1 : u.contentType = "application/pdf" ∧ isPdfSignature u.bytes = true <;>
    by_cases h2 : u.bytes.length ≤ cfg.maxFileSize <;>
      by_cases h3 : 1 ≤ u.month ∧ u.month ≤ 12 ∧ 2000 ≤ u.year ∧ u.year ≤ cfg.currentYear + 1 <;>
        by_cases h4 : 0 < u.employee_id <;>
          simp [h1, h2, h3, h4]

/-- C6: an employee-role caller fetching or deleting a record outside their own
scope receives NotFound, never Forbidden, so other employees' record existence does
not leak across identity boundaries. -/
theorem employee_out_of_scope_not_found (ident : Identity) (pid : Nat) (st : StoreState)
    (hrole : ident.role = Role.employee)
    (hscope : ∀ r ∈ st.metadata, r.id = pid → r.employee_id ≠ ident.employee_id) :
    getById ident pid st = Except.error ApiError.notFound ∧
    deleteById ident pid st = Except.error ApiError.notFound := by
  cases hfind : st.metadata.find? (fun r => r.id == pid) with
  | none =>
      constructor
      · rw [getById, hfind]
      · rw [deleteById, hfind]
  | some r =>
      have hr : r ∈ st.metadata := List.mem_of_find?_eq_some hfind
      have hid : r.id = pid := by
        have hp := List.find?_some hfind
        simpa using hp
      have hne : r.employee_id ≠ ident.employee_id := hscope r hr hid
      constructor
      · rw [getById, hfind]
        exact if_pos ⟨hrole, hne⟩
      · rw [deleteById, hfind]
        exact if_pos ⟨hrole, hne⟩

/-- Witness for C6: employee 123 asking for record id 2, owned by employee 456. -/
theorem employee_out_of_scope_not_found_witness :
    getById identEmp 2 stOther = Except.error ApiError.notFound ∧
    deleteById identEmp 2 stOther = Except.error ApiError.notFound :=
  employee_out_of_scope_not_found identEmp 2 stOther (by rfl) (by decide)

/-- C7: a requested limit above the configured maximum is not an error — the list
operation always answers, its result never exceeds the configured maximum, and any
limit at or above the maximum yields exactly the clamped query. -/
theorem limit_silently_clamped (cfg : Config) (ident : Identity) (requested : Filters)
    (skip limit : Nat) (db : List PayslipRecord) :
    (listPayslips cfg ident requested skip limit db).length ≤ cfg.maxPageLimit ∧
    (cfg.maxPageLimit ≤ limit →
       listPayslips cfg ident requested skip limit db =
         listPayslips cfg ident requested skip cfg.maxPageLimit db) := by
  constructor
  · exact Nat.le_trans (List.length_take_le _ _) (Nat.min_le_right _ _)
  · intro h
    rw [listPayslips, listPayslips, Nat.min_eq_right h, Nat.min_self]

/-- Witness for C7: a request with limit 5000 against the default cap of 1000. -/
theorem limit_silently_clamped_witness :
    (listPayslips cfgEx identHr noFilters 0 5000 [recEx, recOther]).length ≤
      cfgEx.maxPageLimit ∧
    listPayslips cfgEx identHr noFilters 0 5000 [recEx, recOther] =
      listPayslips cfgEx identHr noFilters 0 cfgEx.maxPageLimit [recEx, recOther] :=
  ⟨(limit_silently_clamped cfgEx identHr noFilters 0 5000 [recEx, recOther]).1,
   (limit_silently_clamped cfgEx identHr noFilters 0 5000 [recEx, recOther]).2 (by decide)⟩

/-- C8: every result of the list operation is ordered by created_at descending —
each record was created no earlier than any record after it. -/
theorem list_ordered_most_recent_first (cfg : Config) (ident : Identity)
    (requested : Filters) (skip limit : Nat) (db : List PayslipRecord) :
    (listPayslips cfg ident requested skip limit db).Pairwise
      (fun a b => b.created_at ≤ a.created_at) := by
  have hs : (List.insertionSort createdGe
      (db.filter (matchesFilters (effectiveFilters ident requested)))).Pairwise createdGe :=
    List.sorted_insertionSort createdGe _
  have hsub : List.Sublist (listPayslips cfg ident requested skip limit db)
      (List.insertionSort createdGe
        (db.filter (matchesFilters (effectiveFilters ident requested)))) := by
    rw [listPayslips]
    exact List.Sublist.trans (List.take_sublist _ _) (List.drop_sublist _ _)
  exact hs.sublist hsub

/-- C2: for an employee-role caller the effective employee_id filter is always the
caller's own — two requests differing only in the requested employee_id produce the
same effective filters and the same query result, every returned record belongs to
the caller, and the frontend filter construction silently overrides (never rejects)
a mismatched employee_id filter in the same way. -/
theorem employee_filters_forcibly_narrowed (cfg : Config) (ident : Identity)
    (f1 f2 : Filters) (skip limit : Nat) (db : List PayslipRecord)
    (hrole : ident.role = Role.employee) (hy : f1.year = f2.year) (hm : f1.month = f2.month) :
    effectiveFilters ident f1 = effectiveFilters ident f2 ∧
    listPayslips cfg ident f1 skip limit db = listPayslips cfg ident f2 skip limit db ∧
    (∀ r ∈ listPayslips cfg ident f1 skip limit db, r.employee_id = ident.employee_id) ∧
    buildQueryFilters ident.role ident.employee_id f1 =
      { employee_id := some ident.employee_id, year := f1.year, month := f1.month } := by
  obtain ⟨eid, role⟩ := ident
  replace hrole : role = Role.employee := hrole
  subst hrole
  have heff1 : effectiveFilters ⟨eid, Role.employee⟩ f1 =
      { employee_id := some eid, year := f1.year, month := f1.month } := rfl
  have heff : effectiveFilters ⟨eid, Role.employee⟩ f1 =
      effectiveFilters ⟨eid, Role.employee⟩ f2 := by
    rw [heff1, hy, hm]
    rfl
  refine ⟨heff, ?_, ?_, ?_⟩
  · rw [listPayslips, listPayslips, heff]
  · intro r hr
    have h1 : r ∈ (List.insertionSort createdGe
        (db.filter (matchesFilters (effectiveFilters ⟨eid, Role.employee⟩ f1)))).drop skip := by
      rw [listPayslips] at hr
      exact (List.take_sublist _ _).subset hr
    have h2 : r ∈ List.insertionSort createdGe
        (db.filter (matchesFilters (effectiveFilters ⟨eid, Role.employee⟩ f1))) :=
      (List.drop_sublist _ _).subset h1
    have h3 : r ∈ db.filter (matchesFilters (effectiveFilters ⟨eid, Role.employee⟩ f1)) :=
      (List.mem_insertionSort createdGe).mp h2
    have h4 := (List.mem_filter.mp h3).2
    rw [heff1] at h4
    simp only [matchesFilters, Bool.and_eq_true, beq_iff_eq] at h4
    exact h4.1.1
  · rw [buildQueryFilters]
    simp

/-- Witness for C2: employee 123 requesting employee 456's and employee 789's
records gets identical, self-scoped results both times. -/
theorem employee_filters_forcibly_narrowed_witness :
    effectiveFilters identEmp { employee_id := some 456, year := some 2024, month := some 12 } =
      effectiveFilters identEmp { employee_id := some 789, year := some 2024, month := some 12 } ∧
    listPayslips cfgEx identEmp { employee_id := some 456, year := some 2024, month := some 12 }
        0 10 [recEx, recOther] =
      listPayslips cfgEx identEmp { employee_id := some 789, year := some 2024, month := some 12 }
        0 10 [recEx, recOther] ∧
    (∀ r ∈ listPayslips cfgEx identEmp
        { employee_id := some 456, year := some 2024, month := some 12 } 0 10 [recEx, recOther],
       r.employee_id = identEmp.employee_id) ∧
    buildQueryFilters identEmp.role identEmp.employee_id
        { employee_id := some 456, year := some 2024, month := some 12 } =
      { employee_id := some identEmp.employee_id, year := some 2024, month := some 12 } :=
  employee_filters_forcibly_narrowed cfgEx identEmp
    { employee_id := some 456, year := some 2024, month := some 12 }
    { employee_id := some 789, year := some 2024, month := some 12 }
    0 10 [recEx, recOther] (by rfl) (by rfl) (by rfl)

/-- C9: the demo login resolves for exactly the two fixed credential pairs — the
demo employee (role employee, employee_id 123) and the HR manager (role hr_manager,
employee_id 456) — and rejects every other input with Invalid credentials. -/
theorem demo_login_exact (now : Nat) (email password : String) :
    ((email = "demo@company.com" ∧ password = "demo123") →
       login now email password = Except.ok ("demo-jwt-token-" ++ toString now, demoUser)) ∧
    ((email = "hr@company.com" ∧ password = "hr123") →
       login now email password = Except.ok ("hr-jwt-token-" ++ toString now, hrUser)) ∧
    (¬(email = "demo@company.com" ∧ password = "demo123") →
      ¬(email = "hr@company.com" ∧ password = "hr123") →
       login now email password = Except.error "Invalid credentials") ∧
    demoUser.role = Role.employee ∧ demoUser.employee_id = 123 ∧
    hrUser.role = Role.hr_manager ∧ hrUser.employee_id = 456 := by
  refine ⟨?_, ?_, ?_, rfl, rfl, rfl, rfl⟩
  · intro h
    rw [login, if_pos h]
  · intro h
    by_cases hd : email = "demo@company.com" ∧ password = "demo123"
    · exact absurd (h.1.symm.trans hd.1) (by decide)
    · rw [login, if_neg hd, if_pos h]
  · intro hd hh
    rw [login, if_neg hd, if_neg hh]

/-- Witness for C9: the demo employee pair succeeds and a third pair is rejected. -/
theorem demo_login_exact_witness :
    login 0 "demo@company.com" "demo123" =
      Except.ok ("demo-jwt-token-" ++ toString 0, demoUser) ∧
    login 0 "x@y.z" "pw" = Except.error "Invalid credentials" :=
  ⟨(demo_login_exact 0 "demo@company.com" "demo123").1 ⟨rfl, rfl⟩,
   (demo_login_exact 0 "x@y.z" "pw").2.2.1 (by decide) (by decide)⟩

/-- C10: authentication initialisation never accepts a stored token whose decoded
expiry is not strictly in the future — an expired or undecodable token is removed
from storage and the user state stays null, and an authenticated outcome implies a
decoded expiry strictly beyond the current time. -/
theorem stale_token_rejected (tok : String) (d : DecodeOutcome) (ct : Int) :
    ((∃ c, d = DecodeOutcome.valid c ∧ c.exp ≤ ct) ∨ d = DecodeOutcome.invalid →
       (initAuth (some (tok, d)) ct).user = none ∧
       (initAuth (some (tok, d)) ct).storage = none) ∧
    ((initAuth (some (tok, d)) ct).user.isSome = true →
       ∃ c, d = DecodeOutcome.valid c ∧ ct < c.exp) := by
  constructor
  · rintro (⟨c, rfl, hexp⟩ | rfl)
    · rw [initAuth, if_neg (Int.not_lt.mpr hexp)]
      exact ⟨rfl, rfl⟩
    · exact ⟨rfl, rfl⟩
  · intro h
    cases d with
    | invalid =>
        rw [initAuth] at h
        cases h
    | valid c =>
        by_cases hexp : ct < c.exp
        · exact ⟨c, rfl, hexp⟩
        · rw [initAuth, if_neg hexp] at h
          cases h

/-- Witness for C10: a token expiring exactly at the current time is rejected and
wiped from storage. -/
theorem stale_token_rejected_witness :
    (initAuth (some ("t",
        DecodeOutcome.valid { exp := 5, user_id := 1, employee_id := 123,
                              name := "Demo User", email := "demo@company.com",
                              role := Role.employee })) 5).user = none ∧
    (initAuth (some ("t",
        DecodeOutcome.valid { exp := 5, user_id := 1, employee_id := 123,
                              name := "Demo User", email := "demo@company.com",
                              role := Role.employee })) 5).storage = none :=
  (stale_token_rejected "t"
      (DecodeOutcome.valid { exp := 5, user_id := 1, employee_id := 123,
                             name := "Demo User", email := "demo@company.com",
                             role := Role.employee }) 5).1
    (Or.inl ⟨_, rfl, by decide⟩)
